import Mathlib

/-
Shallow embedding of the dns-updater program (Rust sources: src/main.rs,
src/updater.rs, src/wan_ip_query.rs, src/digitalocean.rs).

External effects (HTTP fetches, the DigitalOcean API, the filesystem) are
modelled as explicit inputs: each cycle of the reconciliation loop receives
the results those calls would produce, and the loop body is translated as a
pure function from those inputs to its outcome and the list of per-record
actions (log events and update calls) it performs.
-/

set_option autoImplicit false

namespace DnsUpdater

/-- Rust `str::to_lowercase`, modelled character-wise via `Char.toLower`
(they agree on the ASCII strings DNS names are made of). Implemented on the
character list so that it computes by kernel reduction. -/
def lowerStr (s : String) : String :=
  ⟨s.data.map Char.toLower⟩

/-- Rust `str::ends_with` for a string pattern: `suffix` is a suffix of
`s`. Implemented on the character lists. -/
def strEndsWith (s suffix : String) : Bool :=
  suffix.data.isSuffixOf s.data

/-- Rust `str::split` with a character separator, as used on the endpoint
file's contents: split into the (possibly empty) pieces between
separators. -/
def splitOnChar (sep : Char) : List Char → List (List Char)
  | [] => [[]]
  | c :: rest =>
      match splitOnChar sep rest with
      | [] => [[]]
      | g :: gs => if c = sep then [] :: g :: gs else (c :: g) :: gs

/-- `Domain` from src/digitalocean.rs: the provider's domain object.
Rust `i32` fields are modelled as `Int`. -/
structure Domain where
  name : String
  ttl : Option Int
  zone_file : Option String
deriving DecidableEq, Repr

/-- `Record` from src/digitalocean.rs: one DNS record of a domain. -/
structure Record where
  id : Int
  ty : String
  name : String
  data : String
  priority : Option Int
  port : Option Int
  ttl : Int
  weight : Option Int
  flags : Option Int
  tag : Option String
deriving DecidableEq, Repr

/-- `std::net::IpAddr`: a v4 address is its four octets; a v6 address is
kept abstract as its textual form (the program only ever turns it into a
string). -/
inductive IpAddr where
  | v4 (a b c d : Nat)
  | v6 (text : String)
deriving DecidableEq, Repr

/-- `IpAddr::to_string()`. For v4 this is the dotted-quad form; for v6 the
abstract textual form carried by the constructor. -/
def ipToString : IpAddr → String
  | .v4 a b c d => toString a ++ "." ++ toString b ++ "." ++ toString c ++ "." ++ toString d
  | .v6 text => text

/-- src/updater.rs lines 39-42: record type derived from the WAN address
family ("A" for IPv4, "AAAA" for IPv6). -/
def wanIpType : IpAddr → String
  | .v4 _ _ _ _ => "A"
  | .v6 _ => "AAAA"

/-- src/updater.rs lines 45-52: the CGNAT test on the first two octets of a
v4 address (`a == 100 && b >= 64 && b <= 127`); the last two octets are
ignored by the code. -/
def is_cgnat (a b : Nat) : Bool :=
  a == 100 && 64 ≤ b && b ≤ 127

/-- The CGNAT check applied to a whole address: only v4 addresses are
tested (the code pattern-matches `IpAddr::V4`). -/
def cgnatCheck : IpAddr → Bool
  | .v4 a b _ _ => is_cgnat a b
  | .v6 _ => false

/-- `WanIpError` from src/wan_ip_query.rs. Error payloads are modelled as
their display strings. -/
inductive WanIpError where
  | ioError
  | queryFailed (msg : String)
  | urlParse (msg : String)
  | noApiEndpointsConfigured
deriving DecidableEq, Repr

/-- `QueryError` from src/digitalocean.rs: the provider client's
status-code-based error classification. -/
inductive QueryError where
  | rateLimited (msg : String)
  | unauthorized (msg : String)
  | notFound (msg : String)
  | serverError (msg : String)
  | unexpectedStatus (code : Nat)
  | reqwestError (msg : String)
deriving DecidableEq, Repr

/-- `AppError` from src/main.rs (plus the `CgNatWanIp` variant used by
src/updater.rs line 50). `OtherError`'s `anyhow::Error` payload is modelled
as the `QueryError` it is converted from at the one conversion site the
loop uses (src/updater.rs line 61). -/
inductive AppError where
  | testFailedDOKeyValidation
  | testFailedToQueryWanIp (e : WanIpError)
  | cgNatWanIp (ip : IpAddr)
  | otherError (e : QueryError)
deriving DecidableEq, Repr

/-- `AppArgs` from src/main.rs (the CLI surface). -/
structure AppArgs where
  do_api_key : String
  update_interval : Option Int
  apply : Bool
  domains : List String
  skip_warning : Bool

/-- The matcher's per-domain test, src/updater.rs lines 220-224:
`domain_arg.to_lowercase().ends_with(&domain.name.to_lowercase())`. -/
def domainMatches (domain_arg : String) (domain : Domain) : Bool :=
  strEndsWith (lowerStr domain_arg) (lowerStr domain.name)

/-- The `find` over the account domains, src/updater.rs line 220: the first
account domain (in list order) whose lowercased name is a suffix of the
lowercased argument. -/
def findMatchingDomain (domain_arg : String) (account_domains : List Domain) : Option Domain :=
  account_domains.find? (domainMatches domain_arg)

/-- `map.entry(domain).or_insert(vec![]).push(domain_arg)`,
src/updater.rs lines 227-229, on an association-list model of the
`HashMap`: append the argument to the domain's group, creating the group at
the end if absent. -/
def addToMap (m : List (Domain × List String)) (d : Domain) (s : String) :
    List (Domain × List String) :=
  match m with
  | [] => [(d, [s])]
  | (d', ss) :: rest =>
      if d' = d then (d', ss ++ [s]) :: rest else (d', ss) :: addToMap rest d s

/-- The loop body of `map_domain_args_to_account_domains`,
src/updater.rs lines 219-233, with the two accumulators explicit. -/
def mapDomainsGo (account_domains : List Domain) :
    List String → List (Domain × List String) → List String →
    List (Domain × List String) × List String
  | [], m, unk => (m, unk)
  | arg :: rest, m, unk =>
      match findMatchingDomain arg account_domains with
      | some d => mapDomainsGo account_domains rest (addToMap m d arg) unk
      | none => mapDomainsGo account_domains rest m (unk ++ [arg])

/-- `map_domain_args_to_account_domains` from src/updater.rs lines 212-236:
groups the requested FQDNs by the account domain chosen by
`findMatchingDomain`, and collects the unmatched ones in order. -/
def map_domain_args_to_account_domains (domain_args : List String)
    (account_domains : List Domain) : List (Domain × List String) × List String :=
  mapDomainsGo account_domains domain_args [] []

/-- The group of requested FQDNs assigned to a given domain in the
matcher's result (empty when the domain has no group). -/
def groupOf (m : List (Domain × List String)) (d : Domain) : List String :=
  ((m.find? (fun p => p.1 = d)).map Prod.snd).getD []

/-- The record-selection predicate, src/updater.rs lines 102-106:
`rec.ty == wan_ip_type && format!("{}.{}", rec.name.to_lowercase(), &domain.name)
== arg_domain_lowercase`. Note the code lowercases the record name and the
requested FQDN but uses `domain.name` verbatim. -/
def recordMatches (wan_ip_type : String) (domain : Domain) (arg_lowercase : String)
    (rec : Record) : Bool :=
  rec.ty == wan_ip_type && (lowerStr rec.name ++ "." ++ domain.name) == arg_lowercase

/-- The `records.iter().find(...)` of src/updater.rs lines 101-106: the
first record of the WAN address type whose computed fully qualified name
equals the lowercased requested FQDN. -/
def find_target_record (records : List Record) (wan_ip_type : String) (domain : Domain)
    (arg_domain : String) : Option Record :=
  records.find? (recordMatches wan_ip_type domain (lowerStr arg_domain))

/-- Modelled from the spec's words (section 4.3), for comparison with
`find_target_record`: the first record where `record.type == wanAddressType`
and `lowercase(record.name) + "." + lowercase(domain.name) ==
lowercase(fqdn)` — the domain name lowercased as well. -/
def find_target_record_spec (records : List Record) (wan_ip_type : String) (domain : Domain)
    (arg_domain : String) : Option Record :=
  records.find? (fun rec =>
    rec.ty == wan_ip_type &&
      (lowerStr rec.name ++ "." ++ lowerStr domain.name) == lowerStr arg_domain)

/-- One `digital_ocean.update_record(...)` call as issued at
src/updater.rs lines 132-139: the domain name, record id, record type and
new value sent to the provider. -/
structure UpdateCall where
  domainName : String
  recordId : Int
  ty : String
  newValue : String
deriving DecidableEq, Repr

/-- The per-requested-FQDN action the loop body performs
(src/updater.rs lines 108-187): a dry-run report line, an "up to date"
skip, an issued update (succeeded or failed), a missing-record error line,
a per-FQDN record-fetch error line, or an unknown-domain error line. -/
inductive RecordAction where
  | dryRunReport (fqdn : String) (upToDate : Bool)
  | upToDate (fqdn : String)
  | updated (call : UpdateCall)
  | updateFailed (call : UpdateCall) (e : QueryError)
  | missingRecord (fqdn : String)
  | fetchFailed (fqdn : String) (e : QueryError)
  | unknownDomain (fqdn : String)
deriving DecidableEq, Repr

/-- Whether an action involved invoking `update_record` (the call is issued
before its result is known, so a failed update still counts as a call). -/
def isUpdateCall : RecordAction → Bool
  | .updated _ => true
  | .updateFailed _ _ => true
  | _ => false

/-- The update calls issued within a list of actions. -/
def updateCalls (actions : List RecordAction) : List UpdateCall :=
  actions.filterMap fun a =>
    match a with
    | .updated c => some c
    | .updateFailed c _ => some c
    | _ => none

/-- The body of the per-FQDN match at src/updater.rs lines 101-167:
find the target record, then either report (dry-run), skip an up-to-date
record, or issue `update_record` with the resolved address. `upd` is the
provider's response to that call. -/
def processArg (apply : Bool) (wan_ip : IpAddr) (wan_ip_type : String) (domain : Domain)
    (records : List Record) (upd : Record → String → Except QueryError Record)
    (arg_domain : String) : RecordAction :=
  match find_target_record records wan_ip_type domain arg_domain with
  | some record =>
      if !apply then
        .dryRunReport arg_domain (ipToString wan_ip == record.data)
      else if ipToString wan_ip == record.data then
        .upToDate (record.name ++ "." ++ domain.name)
      else
        match upd record (ipToString wan_ip) with
        | .ok new_record =>
            .updated ⟨domain.name, record.id, new_record.ty, ipToString wan_ip⟩
        | .error e =>
            .updateFailed ⟨domain.name, record.id, record.ty, ipToString wan_ip⟩ e
  | none => .missingRecord arg_domain

/-- Processing of one domain's group, src/updater.rs lines 94-179: on a
successful record fetch each requested FQDN in the group is handled by
`processArg`; on a failed fetch an error line is logged per requested
FQDN. -/
def processDomain (apply : Bool) (wan_ip : IpAddr) (wan_ip_type : String)
    (recRes : Except QueryError (List Record))
    (upd : Record → String → Except QueryError Record)
    (entry : Domain × List String) : List RecordAction :=
  match recRes with
  | .ok records => entry.2.map (processArg apply wan_ip wan_ip_type entry.1 records upd)
  | .error e => entry.2.map fun arg => .fetchFailed arg e

/-- The results the external world would hand one cycle of the loop: the
WAN-IP query result, the domain-listing result, the per-domain record
fetches, and the provider's response to each update call. -/
structure CycleInput where
  wan_ip : Except WanIpError IpAddr
  account_domains : Except QueryError (List Domain)
  records : Domain → Except QueryError (List Record)
  upd : Domain → Record → String → Except QueryError Record

/-- How one cycle ends, src/updater.rs lines 16-207: a fatal return, a
10-second backoff followed by a retry of the whole cycle (`continue`), a
break out of the loop (`break`, the process then exits successfully), or
a sleep of the configured number of minutes followed by a new cycle. -/
inductive CycleOutcome where
  | fatal (e : AppError)
  | retryAfterSecs (n : Nat)
  | stop
  | sleepMinutes (m : Int)
deriving DecidableEq, Repr

/-- The `map_err` at src/updater.rs lines 59-62: `Unauthorized` becomes
`TestFailedDOKeyValidation`, everything else an `OtherError`. -/
def mapAccountErr (x : Except QueryError (List Domain)) : Except AppError (List Domain) :=
  match x with
  | .ok ds => .ok ds
  | .error (.unauthorized _) => .error .testFailedDOKeyValidation
  | .error e => .error (.otherError e)

/-- The tail of the loop body, src/updater.rs lines 189-206: decide whether
to break or sleep before the next cycle. -/
def waitOutcome (args : AppArgs) : CycleOutcome :=
  if args.apply then
    match args.update_interval with
    | some interval => if interval == 0 then .stop else .sleepMinutes interval
    | none => .stop
  else .stop

/-- One iteration of the `loop` in `start`, src/updater.rs lines 16-207,
as a pure function of the cycle's external inputs: the outcome (fatal /
retry / break / sleep) together with the per-record actions performed. -/
def runCycle (args : AppArgs) (inp : CycleInput) : CycleOutcome × List RecordAction :=
  match inp.wan_ip with
  | .error err =>
      if args.apply then (.retryAfterSecs 10, [])
      else (.fatal (.testFailedToQueryWanIp err), [])
  | .ok wan_ip =>
      let wan_ip_type := wanIpType wan_ip
      if cgnatCheck wan_ip then (.fatal (.cgNatWanIp wan_ip), [])
      else
        match mapAccountErr inp.account_domains with
        | .error err =>
            if args.apply then
              match err with
              | .testFailedDOKeyValidation => (.fatal err, [])
              | _ => (.retryAfterSecs 10, [])
            else (.fatal err, [])
        | .ok account_domains =>
            let mu := map_domain_args_to_account_domains args.domains account_domains
            let actions := mu.1.flatMap
              (fun entry =>
                processDomain args.apply wan_ip wan_ip_type (inp.records entry.1)
                  (inp.upd entry.1) entry)
            (waitOutcome args, actions ++ mu.2.map .unknownDomain)

/-- One endpoint attempt, src/wan_ip_query.rs lines 45-56: `fetch` models
`reqwest::get` followed by `response.text()` (either step failing yields
the error string recorded in `last_error`), and `parse` models
`text.parse::<IpAddr>()`. Rust's `AddrParseError` always displays as
"invalid IP address syntax". -/
def attempt (fetch : String → Except String String) (parse : String → Option IpAddr)
    (url : String) : Except String IpAddr :=
  match fetch url with
  | .ok text =>
      match parse text with
      | some ip => .ok ip
      | none => .error "invalid IP address syntax"
  | .error e => .error e

/-- The `for api_url in api_urls` loop of src/wan_ip_query.rs lines 44-61,
threading `last_error` and also returning the list of endpoints actually
contacted, in order. When the list is exhausted the result is
`QueryFailed` with the last recorded error (or the fallback message when
none was recorded). -/
def queryWanIpGo (fetch : String → Except String String) (parse : String → Option IpAddr) :
    List String → Option String → Except WanIpError IpAddr × List String
  | [], last => (.error (.queryFailed (last.getD "Failed to query WAN IP")), [])
  | url :: rest, _last =>
      match attempt fetch parse url with
      | .ok ip => (.ok ip, [url])
      | .error e =>
          let r := queryWanIpGo fetch parse rest (some e)
          (r.1, url :: r.2)

/-- `query_wan_ip` from src/wan_ip_query.rs lines 36-62, applied to the
already-loaded endpoint list: the empty list fails with
`NoApiEndpointsConfigured` before any endpoint is contacted; otherwise the
endpoints are tried in order. The second component is the list of
endpoints contacted. -/
def query_wan_ip (api_urls : List String) (fetch : String → Except String String)
    (parse : String → Option IpAddr) : Except WanIpError IpAddr × List String :=
  if api_urls.isEmpty then (.error .noApiEndpointsConfigured, [])
  else queryWanIpGo fetch parse api_urls none

/-- A parsed `url::Url`, kept abstract as a wrapper of its text; whether a
string parses is delegated to the `parseUrl` oracle below. -/
structure Url where
  raw : String
deriving DecidableEq, Repr

/-- The result of `File::open(FILE_PATH)`, src/wan_ip_query.rs line 65:
the file's contents, a not-found error, or another IO error. -/
inductive FileOpen where
  | contents (s : String)
  | notFoundErr
  | otherIoError
deriving DecidableEq, Repr

/-- `DEFAULT_APIS` from src/wan_ip_query.rs line 33. -/
def DEFAULT_APIS : List String :=
  ["https://api.seeip.org", "https://api64.ipify.org"]

/-- The write loop of src/wan_ip_query.rs lines 81-83: each default URL
followed by a newline, in order. -/
def defaultFileContents : String :=
  DEFAULT_APIS.foldl (fun acc u => acc ++ u ++ "\n") ""

/-- `collect::<Result<Vec<_>, _>>()` over `Url::parse` as used at
src/wan_ip_query.rs lines 71-75 and 85-88: parse every string, stopping at
the first parse error. -/
def parseAll (parseUrl : String → Except String Url) : List String → Except String (List Url)
  | [] => .ok []
  | u :: rest =>
      match parseUrl u with
      | .error e => .error e
      | .ok url =>
          match parseAll parseUrl rest with
          | .error e => .error e
          | .ok urls => .ok (url :: urls)

/-- `load_api_urls` from src/wan_ip_query.rs lines 64-96. The first
component is the returned list (or error); the second is the contents
written to the endpoint file when it had to be created (`none` when no file
was written). When the file exists, its contents are split on newlines,
empty lines are dropped, and every remaining line must parse as a URL;
when it is absent, the defaults are written out and parsed. A URL parse
failure surfaces as `WanIpError.urlParse`. -/
def load_api_urls (file : FileOpen) (parseUrl : String → Except String Url) :
    Except WanIpError (List Url) × Option String :=
  match file with
  | .contents c =>
      let lines := ((splitOnChar '\n' c.data).filter (fun l => !l.isEmpty)).map String.mk
      (match parseAll parseUrl lines with
       | .ok urls => .ok urls
       | .error e => .error (.urlParse e), none)
  | .notFoundErr =>
      (match parseAll parseUrl DEFAULT_APIS with
       | .ok urls => .ok urls
       | .error e => .error (.urlParse e), some defaultFileContents)
  | .otherIoError => (.error .ioError, none)

/-- `F` appears in the group the matcher built for domain `d`. -/
def assignedTo (m : List (Domain × List String)) (d : Domain) (F : String) : Bool :=
  m.any fun p => decide (p.1 = d) && p.2.contains F

/-- Every group member of the association map was assigned by
`findMatchingDomain` to that group's domain. -/
def MapSound (ds : List Domain) (m : List (Domain × List String)) : Prop :=
  ∀ d ss, (d, ss) ∈ m → ∀ a, a ∈ ss → findMatchingDomain a ds = some d

/-- Every member of the unknown list matched no account domain. -/
def UnkSound (ds : List Domain) (unk : List String) : Prop :=
  ∀ a, a ∈ unk → findMatchingDomain a ds = none

/-- `{ record with data := value }`: the provider-side effect of a
successful `update_record` call on the record's stored value (the call
sends only type and data, and the type sent is the record's own). -/
def setData (r : Record) (v : String) : Record :=
  { r with data := v }

/-- `r` is the record `find_target_record` selects for some requested FQDN
in `argsFor`: exactly the records an apply cycle would bring to the WAN
address. -/
def targetedBy (records : List Record) (ty : String) (dom : Domain) (argsFor : List String)
    (r : Record) : Bool :=
  argsFor.any fun arg => decide (find_target_record records ty dom arg = some r)

/-- The provider-side record set after an apply cycle in which every issued
update succeeded: each targeted record carries the WAN address as its data
(records already up to date are unchanged by `setData`), all others are
untouched. -/
def recordsAfter (records : List Record) (ty : String) (dom : Domain) (argsFor : List String)
    (v : String) : List Record :=
  records.map fun r => if targetedBy records ty dom argsFor r then setData r v else r

/-- Whether a load result is a URL-parse failure. -/
def isUrlParseError : Except WanIpError (List Url) → Bool
  | .error (.urlParse _) => true
  | _ => false

/-- Example account domain `com`. -/
def exDomainCom : Domain := ⟨"com", none, none⟩

/-- Example account domain `ab.com`: a strictly longer suffix of
`x.ab.com` than `com`. -/
def exDomainAbCom : Domain := ⟨"ab.com", none, none⟩

/-- Example account domain `e.com`. -/
def exDomainECom : Domain := ⟨"e.com", none, none⟩

/-- Example account domain `example.com`. -/
def exDomainExampleCom : Domain := ⟨"example.com", none, none⟩

/-- Example account domain whose stored name has an uppercase letter. -/
def exDomainUpper : Domain := ⟨"Example.com", none, none⟩

/-- Example A record `home` with data `198.51.100.1`. -/
def exRecordHome : Record := ⟨1, "A", "home", "198.51.100.1", none, none, 3600, none, none, none⟩

/-- Example one-shot dry-run arguments. -/
def exArgsDry : AppArgs := ⟨"key", none, false, ["home.example.com"], false⟩

/-- Example repeating apply-mode arguments (5-minute interval). -/
def exArgsApply : AppArgs := ⟨"key", some 5, true, ["home.example.com"], false⟩

/-- Example provider that accepts every update call. -/
def exUpd : Domain → Record → String → Except QueryError Record :=
  fun _ r v => .ok (setData r v)

/-- Example cycle input where every external call succeeds. -/
def exInpOk : CycleInput :=
  ⟨.ok (.v4 198 51 100 99), .ok [exDomainExampleCom], fun _ => .ok [exRecordHome], exUpd⟩

/-- Example cycle input whose WAN query resolves to a CGNAT address. -/
def exInpCgnat : CycleInput :=
  ⟨.ok (.v4 100 64 0 1), .ok [], fun _ => .ok [], exUpd⟩

/-- Example cycle input whose domain listing is rejected as unauthorized. -/
def exInpUnauthorized : CycleInput :=
  ⟨.ok (.v4 9 9 9 9), .error (.unauthorized "bad key"), fun _ => .ok [], exUpd⟩

/-- Example cycle input whose domain listing is rate limited. -/
def exInpRateLimited : CycleInput :=
  ⟨.ok (.v4 9 9 9 9), .error (.rateLimited "slow down"), fun _ => .ok [], exUpd⟩

/-- Example endpoint behaviour: the first default endpoint is down, the
second echoes an IPv4 address, anything else is unreachable. -/
def exFetch : String → Except String String := fun u =>
  if u = "https://api.seeip.org" then .error "connection refused"
  else if u = "https://api64.ipify.org" then .ok "203.0.113.5"
  else .error "unknown host"

/-- Example IP-address parser recognising only `203.0.113.5`. -/
def exParse : String → Option IpAddr := fun s =>
  if s = "203.0.113.5" then some (.v4 203 0 113 5) else none

/-- Example URL parser rejecting the one ill-formed line. -/
def exParseUrl : String → Except String Url := fun s =>
  if s = "not a url" then .error "invalid" else .ok ⟨s⟩

theorem assignedTo_iff (m : List (Domain × List String)) (d : Domain) (F : String) :
    assignedTo m d F = true ↔ ∃ ss, (d, ss) ∈ m ∧ F ∈ ss := by
  constructor
  · intro h
    obtain ⟨p, hp, hpred⟩ := List.any_eq_true.mp h
    rw [Bool.and_eq_true, decide_eq_true_iff] at hpred
    exact ⟨p.2, by rw [← hpred.1]; exact hp, List.elem_iff.mp hpred.2⟩
  · rintro ⟨ss, hmem, hF⟩
    exact List.any_eq_true.mpr ⟨(d, ss), hmem,
      by rw [Bool.and_eq_true, decide_eq_true_iff]; exact ⟨rfl, List.elem_iff.mpr hF⟩⟩

theorem assignedTo_addToMap_self (m : List (Domain × List String)) (d : Domain) (s : String) :
    assignedTo (addToMap m d s) d s = true := by
  induction m with
  | nil => simp [addToMap, assignedTo]
  | cons p rest ih =>
    obtain ⟨d', ss⟩ := p
    by_cases h : d' = d
    · subst h
      rw [assignedTo_iff]
      exact ⟨ss ++ [s], by simp [addToMap], by simp⟩
    · rw [assignedTo_iff] at ih ⊢
      obtain ⟨ss', h1, h2⟩ := ih
      exact ⟨ss', by simp [addToMap, h, h1], h2⟩

theorem assignedTo_addToMap_mono (m : List (Domain × List String)) (d' : Domain) (F : String)
    (d : Domain) (s : String) (h : assignedTo m d' F = true) :
    assignedTo (addToMap m d s) d' F = true := by
  induction m with
  | nil => simp [assignedTo] at h
  | cons p rest ih =>
    obtain ⟨d₀, ss₀⟩ := p
    rw [assignedTo_iff] at h
    obtain ⟨ss, hmem, hF⟩ := h
    rcases List.mem_cons.mp hmem with hhead | htail
    · rw [Prod.mk.injEq] at hhead
      obtain ⟨h1, h2⟩ := hhead
      subst h1; subst h2
      by_cases hd : d' = d
      · subst hd
        rw [assignedTo_iff]
        exact ⟨ss ++ [s], by simp [addToMap], List.mem_append_left _ hF⟩
      · rw [assignedTo_iff]
        exact ⟨ss, by simp [addToMap, hd], hF⟩
    · by_cases hd : d₀ = d
      · subst hd
        rw [assignedTo_iff]
        refine ⟨ss, ?_, hF⟩
        simp only [addToMap, if_pos rfl]
        exact List.mem_cons_of_mem _ htail
      · have hrest : assignedTo rest d' F = true := (assignedTo_iff rest d' F).mpr ⟨ss, htail, hF⟩
        have hsub := ih hrest
        rw [assignedTo_iff] at hsub ⊢
        obtain ⟨ss', h1, h2⟩ := hsub
        refine ⟨ss', ?_, h2⟩
        simp only [addToMap, if_neg hd]
        exact List.mem_cons_of_mem _ h1

theorem assignedTo_mapDomainsGo_mono (ds : List Domain) (args : List String)
    (m : List (Domain × List String)) (unk : List String) (d' : Domain) (F : String)
    (h : assignedTo m d' F = true) :
    assignedTo (mapDomainsGo ds args m unk).1 d' F = true := by
  induction args generalizing m unk with
  | nil => exact h
  | cons a rest ih =>
    rw [mapDomainsGo]
    cases hfind : findMatchingDomain a ds with
    | some d => exact ih (addToMap m d a) unk (assignedTo_addToMap_mono m d' F d a h)
    | none => exact ih m (unk ++ [a]) h

theorem unk_mapDomainsGo_mono (ds : List Domain) (args : List String)
    (m : List (Domain × List String)) (unk : List String) (F : String) (h : F ∈ unk) :
    F ∈ (mapDomainsGo ds args m unk).2 := by
  induction args generalizing m unk with
  | nil => exact h
  | cons a rest ih =>
    rw [mapDomainsGo]
    cases hfind : findMatchingDomain a ds with
    | some d => exact ih (addToMap m d a) unk h
    | none => exact ih m (unk ++ [a]) (List.mem_append_left _ h)

theorem mapDomainsGo_assign_some (ds : List Domain) (args : List String)
    (m : List (Domain × List String)) (unk : List String) (F : String) (d : Domain)
    (hF : F ∈ args) (hfind : findMatchingDomain F ds = some d) :
    assignedTo (mapDomainsGo ds args m unk).1 d F = true := by
  induction args generalizing m unk with
  | nil => cases hF
  | cons a rest ih =>
    rw [mapDomainsGo]
    rcases List.mem_cons.mp hF with heq | htail
    · subst heq
      rw [hfind]
      exact assignedTo_mapDomainsGo_mono ds rest _ unk d F (assignedTo_addToMap_self m d F)
    · cases hfind' : findMatchingDomain a ds with
      | some d₀ => exact ih (addToMap m d₀ a) unk htail
      | none => exact ih m (unk ++ [a]) htail

theorem mapDomainsGo_assign_none (ds : List Domain) (args : List String)
    (m : List (Domain × List String)) (unk : List String) (F : String)
    (hF : F ∈ args) (hfind : findMatchingDomain F ds = none) :
    F ∈ (mapDomainsGo ds args m unk).2 := by
  induction args generalizing m unk with
  | nil => cases hF
  | cons a rest ih =>
    rw [mapDomainsGo]
    rcases List.mem_cons.mp hF with heq | htail
    · subst heq
      rw [hfind]
      exact unk_mapDomainsGo_mono ds rest m (unk ++ [F]) F (by simp)
    · cases hfind' : findMatchingDomain a ds with
      | some d₀ => exact ih (addToMap m d₀ a) unk htail
      | none => exact ih m (unk ++ [a]) htail

theorem addToMap_sound (ds : List Domain) (m : List (Domain × List String)) (d : Domain)
    (s : String) (h : MapSound ds m) (hfind : findMatchingDomain s ds = some d) :
    MapSound ds (addToMap m d s) := by
  induction m with
  | nil =>
    intro d' ss' hmem a ha
    simp [addToMap] at hmem
    obtain ⟨h1, h2⟩ := hmem
    subst h1; subst h2
    simp at ha
    subst ha
    exact hfind
  | cons p rest ih =>
    obtain ⟨d₀, ss₀⟩ := p
    by_cases hd : d₀ = d
    · subst hd
      intro d' ss' hmem a ha
      simp [addToMap] at hmem
      rcases hmem with ⟨h1, h2⟩ | htail
      · subst h1; subst h2
        rcases List.mem_append.mp ha with hin | hin
        · exact h d' ss₀ (List.mem_cons_self _ _) a hin
        · simp at hin
          subst hin
          exact hfind
      · exact h d' ss' (List.mem_cons_of_mem _ htail) a ha
    · intro d' ss' hmem a ha
      simp only [addToMap, if_neg hd] at hmem
      rcases List.mem_cons.mp hmem with hhead | htail
      · rw [Prod.mk.injEq] at hhead
        obtain ⟨h1, h2⟩ := hhead
        subst h1; subst h2
        exact h d' ss' (List.mem_cons_self _ _) a ha
      · have hsound : MapSound ds rest := fun d₁ ss₁ hm₁ a₁ ha₁ =>
          h d₁ ss₁ (List.mem_cons_of_mem _ hm₁) a₁ ha₁
        exact ih hsound d' ss' htail a ha

theorem mapDomainsGo_sound (ds : List Domain) (args : List String)
    (m : List (Domain × List String)) (unk : List String)
    (hm : MapSound ds m) (hu : UnkSound ds unk) :
    MapSound ds (mapDomainsGo ds args m unk).1 ∧ UnkSound ds (mapDomainsGo ds args m unk).2 := by
  induction args generalizing m unk with
  | nil => exact ⟨hm, hu⟩
  | cons a rest ih =>
    rw [mapDomainsGo]
    cases hfind : findMatchingDomain a ds with
    | some d => exact ih (addToMap m d a) unk (addToMap_sound ds m d a hm hfind) hu
    | none =>
      refine ih m (unk ++ [a]) hm ?_
      intro x hx
      rcases List.mem_append.mp hx with h | h
      · exact hu x h
      · simp at h
        subst h
        exact hfind

theorem map_result_sound (ds : List Domain) (args : List String) :
    MapSound ds (map_domain_args_to_account_domains args ds).1 ∧
    UnkSound ds (map_domain_args_to_account_domains args ds).2 :=
  mapDomainsGo_sound ds args [] [] (fun _ _ h => by cases h) (fun _ h => by cases h)

theorem assignedTo_find (ds : List Domain) (args : List String) (d' : Domain) (F : String)
    (h : assignedTo (map_domain_args_to_account_domains args ds).1 d' F = true) :
    findMatchingDomain F ds = some d' := by
  obtain ⟨ss, hmem, hF⟩ := (assignedTo_iff _ _ _).mp h
  exact (map_result_sound ds args).1 d' ss hmem F hF

/-- C1: for every list of requested FQDNs and account domains, each
requested FQDN is assigned to the FIRST account domain in account-list
order whose name is a case-insensitive suffix of the FQDN (`List.find?`
order, not the longest suffix), it is assigned to no other domain, and an
FQDN matching no account domain goes to the unknown list and to no
group. -/
theorem matcher_first_suffix_assignment (ds : List Domain) (args : List String) (F : String)
    (hF : F ∈ args) :
    (∀ d, findMatchingDomain F ds = some d →
        assignedTo (map_domain_args_to_account_domains args ds).1 d F = true ∧
        ∀ d', assignedTo (map_domain_args_to_account_domains args ds).1 d' F = true → d' = d) ∧
    (findMatchingDomain F ds = none →
        F ∈ (map_domain_args_to_account_domains args ds).2 ∧
        ∀ d', assignedTo (map_domain_args_to_account_domains args ds).1 d' F = false) := by
  constructor
  · intro d hfind
    refine ⟨mapDomainsGo_assign_some ds args [] [] F d hF hfind, ?_⟩
    intro d' h'
    have hfind' := assignedTo_find ds args d' F h'
    rw [hfind] at hfind'
    exact (Option.some_inj.mp hfind').symm
  · intro hnone
    refine ⟨mapDomainsGo_assign_none ds args [] [] F hF hnone, ?_⟩
    intro d'
    cases h' : assignedTo (map_domain_args_to_account_domains args ds).1 d' F with
    | false => rfl
    | true =>
      have hfind' := assignedTo_find ds args d' F h'
      rw [hnone] at hfind'
      cases hfind'

/-- C1 counterexample: with account domains `[com, ab.com]` (in that
order) and requested FQDN `x.ab.com`, both domain names are
case-insensitive suffixes, `ab.com` is the strictly longer one (so it is
the longest match and no longer-matching domain exists), yet the matcher
assigns `x.ab.com` to the earlier, shorter `com`, not to `ab.com`. -/
theorem matcher_longest_suffix_refuted :
    domainMatches "x.ab.com" exDomainAbCom = true ∧
    domainMatches "x.ab.com" exDomainCom = true ∧
    exDomainAbCom.name.length > exDomainCom.name.length ∧
    assignedTo (map_domain_args_to_account_domains ["x.ab.com"] [exDomainCom, exDomainAbCom]).1
      exDomainAbCom "x.ab.com" = false ∧
    assignedTo (map_domain_args_to_account_domains ["x.ab.com"] [exDomainCom, exDomainAbCom]).1
      exDomainCom "x.ab.com" = true := by
  decide

/-- Witness for `matcher_first_suffix_assignment` at a concrete input. -/
theorem matcher_first_suffix_assignment_instance :
    findMatchingDomain "x.ab.com" [exDomainCom, exDomainAbCom] = some exDomainCom ∧
    assignedTo (map_domain_args_to_account_domains ["x.ab.com"] [exDomainCom, exDomainAbCom]).1
      exDomainCom "x.ab.com" = true :=
  ⟨by decide,
    ((matcher_first_suffix_assignment [exDomainCom, exDomainAbCom] ["x.ab.com"] "x.ab.com"
        (by decide)).1 exDomainCom (by decide)).1⟩

theorem find?_ext {α : Type} (p q : α → Bool) (l : List α) (h : ∀ a, p a = q a) :
    l.find? p = l.find? q := by
  induction l with
  | nil => rfl
  | cons a rest ih =>
    simp only [List.find?, h a]
    cases q a
    · exact ih
    · rfl

/-- C2 (amended): the record targeted for update/report is the first
record of the WAN address type whose `lowercase(record.name) + "." +
domain.name` equals `lowercase(fqdn)` — the domain name is used verbatim,
so whenever the stored domain name is already lowercase the selection
agrees with the spec's fully-lowercased comparison
(`find_target_record_spec`). -/
theorem record_selection_lowercase_agreement (records : List Record) (ty : String)
    (domain : Domain) (fqdn : String) (h : lowerStr domain.name = domain.name) :
    find_target_record records ty domain fqdn = find_target_record_spec records ty domain fqdn := by
  unfold find_target_record find_target_record_spec
  apply find?_ext
  intro rec
  simp only [recordMatches]
  rw [h]

/-- C2 counterexample: with stored domain name `Example.com`, requested
FQDN `home.example.com` and an A record named `home`, the record satisfies
the claim's fully-lowercased comparison (so the claim says it is targeted),
yet the code targets no record because it concatenates the domain name
without lowercasing it. -/
theorem record_selection_domain_case_refuted :
    exRecordHome.ty = "A" ∧
    lowerStr exRecordHome.name ++ "." ++ lowerStr exDomainUpper.name =
      lowerStr "home.example.com" ∧
    find_target_record_spec [exRecordHome] "A" exDomainUpper "home.example.com" =
      some exRecordHome ∧
    find_target_record [exRecordHome] "A" exDomainUpper "home.example.com" = none := by
  decide

/-- Witness for `record_selection_lowercase_agreement` at a concrete
lowercase domain name. -/
theorem record_selection_lowercase_agreement_instance :
    lowerStr exDomainExampleCom.name = exDomainExampleCom.name ∧
    find_target_record [exRecordHome] "A" exDomainExampleCom "home.example.com" =
      find_target_record_spec [exRecordHome] "A" exDomainExampleCom "home.example.com" :=
  ⟨by decide,
    record_selection_lowercase_agreement [exRecordHome] "A" exDomainExampleCom
      "home.example.com" (by decide)⟩

/-- C3: a resolved IPv4 address is classified CGNAT exactly when its first
octet is 100 and its second octet lies in [64, 127] (the 100.64.0.0/10
block); on such an address the cycle ends fatally with `CgNatWanIp` for
every argument configuration (apply and dry-run alike, never a retry); the
boundary addresses 100.63.255.255 and 100.128.0.0 are not CGNAT while
100.64.0.1 and 100.127.255.254 are. -/
theorem cgnat_classification_fatal (args : AppArgs) (inp : CycleInput) (a b c d : Nat)
    (hwan : inp.wan_ip = .ok (.v4 a b c d)) :
    (cgnatCheck (.v4 a b c d) = true ↔ (a = 100 ∧ 64 ≤ b ∧ b ≤ 127)) ∧
    (cgnatCheck (.v4 a b c d) = true →
        (runCycle args inp).1 = .fatal (.cgNatWanIp (.v4 a b c d))) ∧
    (cgnatCheck (.v4 a b c d) = false →
        ∀ ip, (runCycle args inp).1 ≠ .fatal (.cgNatWanIp ip)) ∧
    cgnatCheck (.v4 100 63 255 255) = false ∧
    cgnatCheck (.v4 100 128 0 0) = false ∧
    cgnatCheck (.v4 100 64 0 1) = true ∧
    cgnatCheck (.v4 100 127 255 254) = true := by
  refine ⟨?_, ?_, ?_, by decide, by decide, by decide, by decide⟩
  · simp [cgnatCheck, is_cgnat, Bool.and_eq_true, beq_iff_eq, decide_eq_true_eq, and_assoc]
  · intro hc
    simp only [runCycle, hwan]
    simp [hc]
  · intro hc ip
    simp only [runCycle, hwan]
    simp only [hc, Bool.false_eq_true, if_false]
    cases hd : inp.account_domains with
    | error e => cases e <;> cases hap : args.apply <;> simp [mapAccountErr, hd, hap]
    | ok ds =>
      simp only [mapAccountErr, hd]
      cases hap : args.apply
      · simp [waitOutcome, hap]
      · cases hint : args.update_interval with
        | none => simp [waitOutcome, hap, hint]
        | some i =>
          simp only [waitOutcome, hap, hint]
          rcases eq_or_ne i 0 with hz | hz <;> simp [hz]

/-- Witness for `cgnat_classification_fatal`: the run on 100.64.0.1 in
dry-run mode ends fatally with the CGNAT error. -/
theorem cgnat_classification_fatal_instance :
    exInpCgnat.wan_ip = Except.ok (.v4 100 64 0 1) ∧
    (runCycle exArgsDry exInpCgnat).1 = .fatal (.cgNatWanIp (.v4 100 64 0 1)) :=
  ⟨rfl, (cgnat_classification_fatal exArgsDry exInpCgnat 100 64 0 1 rfl).2.1 (by decide)⟩

/-- C10 (amended): the suffix test imposes no label boundary — whenever
some account domain's lowercased name is a bare textual suffix of the
lowercased FQDN, even with no "." separator, the FQDN is matched rather
than reported unknown, and it is assigned to the first account domain
passing that bare suffix test (which matches it without any boundary
requirement). -/
theorem suffix_no_label_boundary (ds : List Domain) (args : List String) (F : String)
    (d : Domain) (hF : F ∈ args) (hd : d ∈ ds)
    (hsuf : strEndsWith (lowerStr F) (lowerStr d.name) = true) :
    (findMatchingDomain F ds).isSome = true ∧
    (∀ d', findMatchingDomain F ds = some d' →
        domainMatches F d' = true ∧
        assignedTo (map_domain_args_to_account_domains args ds).1 d' F = true) ∧
    F ∉ (map_domain_args_to_account_domains args ds).2 := by
  have hisSome : (findMatchingDomain F ds).isSome = true := by
    rw [findMatchingDomain, List.find?_isSome]
    exact ⟨d, hd, hsuf⟩
  refine ⟨hisSome, ?_, ?_⟩
  · intro d' hfind
    exact ⟨List.find?_some hfind, mapDomainsGo_assign_some ds args [] [] F d' hF hfind⟩
  · intro hmem
    have hnone := (map_result_sound ds args).2 F hmem
    rw [hnone] at hisSome
    cases hisSome

/-- C10 counterexample: with account domains `[e.com, example.com]` (in
that order), `badexample.com` ends with `example.com` case-insensitively,
yet it is not assigned to `example.com` (the earlier `e.com` also passes
the bare suffix test and steals the assignment), refuting "assigned to D
whenever lowercase(F) ends with lowercase(D.name)" as a universal
statement. -/
theorem suffix_assignment_order_refuted :
    exDomainExampleCom ∈ [exDomainECom, exDomainExampleCom] ∧
    strEndsWith (lowerStr "badexample.com") (lowerStr exDomainExampleCom.name) = true ∧
    assignedTo
      (map_domain_args_to_account_domains ["badexample.com"]
        [exDomainECom, exDomainExampleCom]).1
      exDomainExampleCom "badexample.com" = false := by
  decide

/-- Witness for `suffix_no_label_boundary`: `badexample.com` with sole
account domain `example.com` is matched to it despite the missing label
boundary. -/
theorem suffix_no_label_boundary_instance :
    assignedTo (map_domain_args_to_account_domains ["badexample.com"] [exDomainExampleCom]).1
      exDomainExampleCom "badexample.com" = true :=
  ((suffix_no_label_boundary [exDomainExampleCom] ["badexample.com"] "badexample.com"
      exDomainExampleCom (by decide) (by decide) (by decide)).2.1
    exDomainExampleCom (by decide)).2

theorem updateCalls_append (l1 l2 : List RecordAction) :
    updateCalls (l1 ++ l2) = updateCalls l1 ++ updateCalls l2 := by
  simp [updateCalls, List.filterMap_append]

theorem updateCalls_eq_nil (l : List RecordAction) (h : ∀ a ∈ l, isUpdateCall a = false) :
    updateCalls l = [] := by
  induction l with
  | nil => rfl
  | cons x rest ih =>
    have hx := h x (List.mem_cons_self _ _)
    have hrest := ih fun a ha => h a (List.mem_cons_of_mem _ ha)
    cases x <;> simp_all [updateCalls, isUpdateCall, List.filterMap_cons]

theorem updateCalls_flatMap_nil {α : Type} (f : α → List RecordAction) (l : List α)
    (h : ∀ a ∈ l, updateCalls (f a) = []) : updateCalls (l.flatMap f) = [] := by
  induction l with
  | nil => rfl
  | cons a rest ih =>
    rw [List.flatMap_cons, updateCalls_append, h a (List.mem_cons_self _ _),
      ih fun x hx => h x (List.mem_cons_of_mem _ hx)]
    rfl

theorem processArg_dry_no_update (wan : IpAddr) (ty : String) (dom : Domain)
    (records : List Record) (upd : Record → String → Except QueryError Record)
    (arg : String) : isUpdateCall (processArg false wan ty dom records upd arg) = false := by
  cases h : find_target_record records ty dom arg with
  | none => simp [processArg, h, isUpdateCall]
  | some r => simp [processArg, h, isUpdateCall]

theorem updateCalls_processDomain_dry (wan : IpAddr) (ty : String)
    (recRes : Except QueryError (List Record))
    (upd : Record → String → Except QueryError Record) (entry : Domain × List String) :
    updateCalls (processDomain false wan ty recRes upd entry) = [] := by
  cases recRes with
  | ok records =>
    apply updateCalls_eq_nil
    intro a ha
    simp only [processDomain] at ha
    obtain ⟨arg, _, rfl⟩ := List.mem_map.mp ha
    exact processArg_dry_no_update wan ty entry.1 records upd arg
  | error e =>
    apply updateCalls_eq_nil
    intro a ha
    simp only [processDomain] at ha
    obtain ⟨arg, _, rfl⟩ := List.mem_map.mp ha
    rfl

/-- C4: with apply mode off, a cycle issues no `update_record` call at
all, whatever the cycle's inputs — every action is a report or an error
log, so remote state is untouched. -/
theorem dry_run_performs_no_updates (args : AppArgs) (inp : CycleInput)
    (h : args.apply = false) :
    updateCalls (runCycle args inp).2 = [] := by
  cases hw : inp.wan_ip with
  | error e => simp [runCycle, hw, h, updateCalls]
  | ok wan =>
    cases hc : cgnatCheck wan with
    | true => simp [runCycle, hw, hc, updateCalls]
    | false =>
      cases hd : mapAccountErr inp.account_domains with
      | error e => cases e <;> simp [runCycle, hw, hc, hd, h, updateCalls]
      | ok ds =>
        simp only [runCycle, hw, hc, hd, h, Bool.false_eq_true, if_false]
        rw [updateCalls_append]
        rw [updateCalls_flatMap_nil _ _ fun entry _ =>
          updateCalls_processDomain_dry wan (wanIpType wan) (inp.records entry.1)
            (inp.upd entry.1) entry]
        rw [updateCalls_eq_nil _ fun a ha => ?_]
        · rfl
        · obtain ⟨arg, _, rfl⟩ := List.mem_map.mp ha
          rfl

/-- Witness for `dry_run_performs_no_updates` on a concrete dry-run cycle
with a found, outdated record. -/
theorem dry_run_performs_no_updates_instance :
    exArgsDry.apply = false ∧ updateCalls (runCycle exArgsDry exInpOk).2 = [] :=
  ⟨rfl, dry_run_performs_no_updates exArgsDry exInpOk rfl⟩

theorem find?_map_pred {α : Type} (f : α → α) (p : α → Bool) (hp : ∀ a, p (f a) = p a)
    (l : List α) : (l.map f).find? p = (l.find? p).map f := by
  induction l with
  | nil => rfl
  | cons a rest ih =>
    simp only [List.map_cons, List.find?, hp a]
    cases p a
    · exact ih
    · rfl

theorem recordMatches_setData (ty : String) (dom : Domain) (s : String) (r : Record)
    (v : String) : recordMatches ty dom s (setData r v) = recordMatches ty dom s r :=
  rfl

theorem find_target_recordsAfter (records : List Record) (ty : String) (dom : Domain)
    (argsFor : List String) (v : String) (arg : String) :
    find_target_record (recordsAfter records ty dom argsFor v) ty dom arg =
      (find_target_record records ty dom arg).map
        fun r => if targetedBy records ty dom argsFor r then setData r v else r := by
  unfold find_target_record recordsAfter
  apply find?_map_pred
  intro r
  cases h : targetedBy records ty dom argsFor r <;> simp [h, recordMatches_setData]

theorem recordsAfter_found_data (records : List Record) (ty : String) (dom : Domain)
    (argsFor : List String) (v : String) (arg : String) (r2 : Record)
    (hmem : arg ∈ argsFor)
    (h : find_target_record (recordsAfter records ty dom argsFor v) ty dom arg = some r2) :
    r2.data = v := by
  rw [find_target_recordsAfter] at h
  rcases Option.map_eq_some'.mp h with ⟨r, hr, hf⟩
  have htarget : targetedBy records ty dom argsFor r = true := by
    rw [targetedBy, List.any_eq_true]
    exact ⟨arg, hmem, decide_eq_true hr⟩
  rw [htarget] at hf
  simp only [if_true] at hf
  rw [← hf]
  rfl

/-- C5: in apply mode, for a found record the `update_record` call is
issued if and only if the record's current data differs (as a string) from
the resolved WAN address; consequently over the record state produced by a
successful apply cycle (`recordsAfter`, unchanged WAN address) a second
apply pass issues zero update calls, and every requested FQDN whose record
is found is reported "up to date". -/
theorem apply_update_iff_and_idempotent (wan : IpAddr) (ty : String) (dom : Domain)
    (records : List Record) (upd : Record → String → Except QueryError Record)
    (argsFor : List String) :
    (∀ arg r, find_target_record records ty dom arg = some r →
        (isUpdateCall (processArg true wan ty dom records upd arg) = true ↔
          ipToString wan ≠ r.data)) ∧
    updateCalls (argsFor.map (processArg true wan ty dom
        (recordsAfter records ty dom argsFor (ipToString wan)) upd)) = [] ∧
    (∀ arg r2, arg ∈ argsFor →
        find_target_record (recordsAfter records ty dom argsFor (ipToString wan)) ty dom arg
          = some r2 →
        processArg true wan ty dom (recordsAfter records ty dom argsFor (ipToString wan)) upd
          arg = .upToDate (r2.name ++ "." ++ dom.name)) := by
  have hup : ∀ arg r2,
      find_target_record (recordsAfter records ty dom argsFor (ipToString wan)) ty dom arg
        = some r2 → r2.data = ipToString wan →
      processArg true wan ty dom (recordsAfter records ty dom argsFor (ipToString wan)) upd
        arg = .upToDate (r2.name ++ "." ++ dom.name) := by
    intro arg r2 hfind hdata
    simp only [processArg, hfind, Bool.not_true, Bool.false_eq_true, if_false]
    rw [hdata]
    simp
  refine ⟨?_, ?_, ?_⟩
  · intro arg r h
    simp only [processArg, h, Bool.not_true, Bool.false_eq_true, if_false]
    cases heq : ipToString wan == r.data with
    | true =>
      have heq' : ipToString wan = r.data := eq_of_beq heq
      simp [isUpdateCall, heq']
    | false =>
      have hne : ipToString wan ≠ r.data := ne_of_beq_false heq
      cases hupd : upd r (ipToString wan) <;> simp [isUpdateCall, hne]
  · apply updateCalls_eq_nil
    intro a ha
    obtain ⟨arg, hargmem, rfl⟩ := List.mem_map.mp ha
    cases hfind : find_target_record (recordsAfter records ty dom argsFor (ipToString wan))
        ty dom arg with
    | none => simp [processArg, hfind, isUpdateCall]
    | some r2 =>
      rw [hup arg r2 hfind
        (recordsAfter_found_data records ty dom argsFor (ipToString wan) arg r2 hargmem hfind)]
      rfl
  · intro arg r2 hargmem hfind
    exact hup arg r2 hfind
      (recordsAfter_found_data records ty dom argsFor (ipToString wan) arg r2 hargmem hfind)

/-- Witness for `apply_update_iff_and_idempotent`: the outdated example
record triggers an update call, and the up-to-date record set after that
cycle triggers none. -/
theorem apply_update_iff_and_idempotent_instance :
    isUpdateCall (processArg true (.v4 198 51 100 99) "A" exDomainExampleCom [exRecordHome]
      (exUpd exDomainExampleCom) "home.example.com") = true ∧
    updateCalls (["home.example.com"].map (processArg true (.v4 198 51 100 99) "A"
      exDomainExampleCom
      (recordsAfter [exRecordHome] "A" exDomainExampleCom ["home.example.com"]
        (ipToString (.v4 198 51 100 99)))
      (exUpd exDomainExampleCom))) = [] :=
  ⟨((apply_update_iff_and_idempotent (.v4 198 51 100 99) "A" exDomainExampleCom [exRecordHome]
      (exUpd exDomainExampleCom) ["home.example.com"]).1 "home.example.com" exRecordHome
      (by decide)).mpr (by decide),
    (apply_update_iff_and_idempotent (.v4 198 51 100 99) "A" exDomainExampleCom [exRecordHome]
      (exUpd exDomainExampleCom) ["home.example.com"]).2.1⟩

/-- C7: when the domain listing fails with `Unauthorized`, the cycle ends
fatally with the key-validation error in both apply and dry-run modes; on
any other listing failure the cycle retries after a 10-second backoff when
apply mode is on and ends fatally when apply mode is off. -/
theorem listing_error_policy (args : AppArgs) (inp : CycleInput) (wan : IpAddr)
    (hwan : inp.wan_ip = .ok wan) (hcg : cgnatCheck wan = false) :
    (∀ msg, inp.account_domains = .error (.unauthorized msg) →
        (runCycle args inp).1 = .fatal .testFailedDOKeyValidation) ∧
    (∀ e, inp.account_domains = .error e → (∀ msg, e ≠ .unauthorized msg) →
        (args.apply = true → (runCycle args inp).1 = .retryAfterSecs 10) ∧
        (args.apply = false → (runCycle args inp).1 = .fatal (.otherError e))) := by
  constructor
  · intro msg hacc
    have hmap : mapAccountErr inp.account_domains = .error .testFailedDOKeyValidation := by
      rw [hacc]; rfl
    cases hap : args.apply <;> simp [runCycle, hwan, hcg, hmap, hap]
  · intro e hacc hne
    have hmap : mapAccountErr inp.account_domains = .error (.otherError e) := by
      rw [hacc]
      cases e
      case unauthorized m => exact absurd rfl (hne m)
      all_goals rfl
    constructor
    · intro hap
      simp [runCycle, hwan, hcg, hmap, hap]
    · intro hap
      simp [runCycle, hwan, hcg, hmap, hap]

/-- Witness for `listing_error_policy`: unauthorized listing is fatal in
dry-run mode; a rate-limited listing retries after 10 seconds in apply
mode and is fatal in dry-run mode. -/
theorem listing_error_policy_instance :
    (runCycle exArgsDry exInpUnauthorized).1 = .fatal .testFailedDOKeyValidation ∧
    (runCycle exArgsApply exInpRateLimited).1 = .retryAfterSecs 10 ∧
    (runCycle exArgsDry exInpRateLimited).1 = .fatal (.otherError (.rateLimited "slow down")) :=
  ⟨(listing_error_policy exArgsDry exInpUnauthorized (.v4 9 9 9 9) rfl (by decide)).1
      "bad key" rfl,
    ((listing_error_policy exArgsApply exInpRateLimited (.v4 9 9 9 9) rfl (by decide)).2
      (.rateLimited "slow down") rfl (fun _ h => QueryError.noConfusion h)).1 rfl,
    ((listing_error_policy exArgsDry exInpRateLimited (.v4 9 9 9 9) rfl (by decide)).2
      (.rateLimited "slow down") rfl (fun _ h => QueryError.noConfusion h)).2 rfl⟩

/-- C8: a cycle that got past resolving and listing ends the loop (breaks
after one cycle) exactly when apply mode is off, or no interval is
configured, or the interval is zero; otherwise it sleeps for the configured
number of minutes and a new cycle follows. -/
theorem cycle_termination_condition (args : AppArgs) (inp : CycleInput) (wan : IpAddr)
    (ds : List Domain) (hwan : inp.wan_ip = .ok wan) (hcg : cgnatCheck wan = false)
    (hds : inp.account_domains = .ok ds) :
    ((runCycle args inp).1 = .stop ↔
      (args.apply = false ∨ args.update_interval = none ∨ args.update_interval = some 0)) ∧
    (∀ i, args.apply = true → args.update_interval = some i → i ≠ 0 →
        (runCycle args inp).1 = .sleepMinutes i) := by
  have hmap : mapAccountErr inp.account_domains = .ok ds := by rw [hds]; rfl
  have houtcome : (runCycle args inp).1 = waitOutcome args := by
    simp [runCycle, hwan, hcg, hmap]
  rw [houtcome]
  constructor
  · cases hap : args.apply
    · simp [waitOutcome, hap]
    · cases hint : args.update_interval with
      | none => simp [waitOutcome, hap, hint]
      | some i =>
        cases hi0 : i == 0 with
        | true =>
          have hz : i = 0 := eq_of_beq hi0
          simp [waitOutcome, hap, hint, hi0, hz]
        | false =>
          have hnz : i ≠ 0 := ne_of_beq_false hi0
          simp [waitOutcome, hap, hint, hi0, hnz]
  · intro i hap hint hi
    have hi0 : (i == 0) = false := beq_eq_false_iff_ne.mpr hi
    simp [waitOutcome, hap, hint, hi0]

/-- Witness for `cycle_termination_condition`: a successful apply cycle
with a 5-minute interval sleeps 5 minutes; the same cycle in dry-run mode
stops. -/
theorem cycle_termination_condition_instance :
    (runCycle exArgsApply exInpOk).1 = .sleepMinutes 5 ∧
    (runCycle exArgsDry exInpOk).1 = .stop :=
  ⟨(cycle_termination_condition exArgsApply exInpOk (.v4 198 51 100 99) [exDomainExampleCom]
      rfl (by decide) rfl).2 5 rfl rfl (by decide),
    (cycle_termination_condition exArgsDry exInpOk (.v4 198 51 100 99) [exDomainExampleCom]
      rfl (by decide) rfl).1.mpr (Or.inl rfl)⟩

theorem queryWanIpGo_nil (fetch : String → Except String String)
    (parse : String → Option IpAddr) (last : Option String) :
    queryWanIpGo fetch parse [] last =
      (.error (.queryFailed (last.getD "Failed to query WAN IP")), []) :=
  rfl

theorem queryWanIpGo_cons_ok (fetch : String → Except String String)
    (parse : String → Option IpAddr) (url : String) (rest : List String)
    (last : Option String) (ip : IpAddr) (h : attempt fetch parse url = .ok ip) :
    queryWanIpGo fetch parse (url :: rest) last = (.ok ip, [url]) := by
  simp only [queryWanIpGo, h]

theorem queryWanIpGo_cons_error (fetch : String → Except String String)
    (parse : String → Option IpAddr) (url : String) (rest : List String)
    (last : Option String) (e : String) (h : attempt fetch parse url = .error e) :
    queryWanIpGo fetch parse (url :: rest) last =
      ((queryWanIpGo fetch parse rest (some e)).1,
        url :: (queryWanIpGo fetch parse rest (some e)).2) := by
  simp only [queryWanIpGo, h]

theorem attempt_error_of_not_ok (fetch : String → Except String String)
    (parse : String → Option IpAddr) (url : String)
    (h : (attempt fetch parse url).isOk = false) :
    ∃ e, attempt fetch parse url = .error e := by
  cases hatt : attempt fetch parse url with
  | ok ip =>
    rw [hatt] at h
    cases h
  | error e => exact ⟨e, rfl⟩

theorem queryWanIpGo_first_success (fetch : String → Except String String)
    (parse : String → Option IpAddr) (u : String) (rest : List String) (ip : IpAddr)
    (hsucc : attempt fetch parse u = .ok ip) :
    ∀ (failed : List String) (last : Option String),
      (∀ f ∈ failed, (attempt fetch parse f).isOk = false) →
      queryWanIpGo fetch parse (failed ++ u :: rest) last = (.ok ip, failed ++ [u]) := by
  intro failed
  induction failed with
  | nil =>
    intro last _
    exact queryWanIpGo_cons_ok fetch parse u rest last ip hsucc
  | cons f fs ih =>
    intro last hfail
    obtain ⟨e, hatt⟩ :=
      attempt_error_of_not_ok fetch parse f (hfail f (List.mem_cons_self _ _))
    rw [List.cons_append, queryWanIpGo_cons_error fetch parse f _ last e hatt,
      ih (some e) fun x hx => hfail x (List.mem_cons_of_mem _ hx)]
    rfl

theorem getLast?_cons_cons_eq {α : Type} (a b : α) (l : List α) :
    (a :: b :: l).getLast? = (b :: l).getLast? :=
  List.getLast?_cons_cons

theorem queryWanIpGo_all_fail (fetch : String → Except String String)
    (parse : String → Option IpAddr) :
    ∀ (urls : List String) (last : Option String) (ulast : String) (e : String),
      urls.getLast? = some ulast →
      (∀ f ∈ urls, (attempt fetch parse f).isOk = false) →
      attempt fetch parse ulast = .error e →
      queryWanIpGo fetch parse urls last = (.error (.queryFailed e), urls) := by
  intro urls
  induction urls with
  | nil =>
    intro last ulast e hlast
    cases hlast
  | cons u us ih =>
    intro last ulast e hlast hfail herr
    cases us with
    | nil =>
      have hu : u = ulast := by simpa using hlast
      subst hu
      rw [queryWanIpGo_cons_error fetch parse u [] last e herr, queryWanIpGo_nil]
      rfl
    | cons v vs =>
      obtain ⟨e', hatt⟩ :=
        attempt_error_of_not_ok fetch parse u (hfail u (List.mem_cons_self _ _))
      have hlast' : (v :: vs).getLast? = some ulast := by
        rw [← getLast?_cons_cons_eq u v vs]
        exact hlast
      rw [queryWanIpGo_cons_error fetch parse u (v :: vs) last e' hatt,
        ih (some e') ulast e hlast'
          (fun x hx => hfail x (List.mem_cons_of_mem _ hx)) herr]

/-- C6: on the empty endpoint list the WAN resolver fails with
`NoApiEndpointsConfigured` contacting nothing; with endpoints tried in
list order, the first whose fetch-and-parse succeeds yields its address and
no later endpoint is contacted (the contacted list is exactly the failed
ones plus the succeeding one); when every endpoint fails, the result is
`QueryFailed` carrying the last endpoint's error, all endpoints having
been contacted. -/
theorem wan_query_first_success_policy (fetch : String → Except String String)
    (parse : String → Option IpAddr) :
    query_wan_ip [] fetch parse = (.error .noApiEndpointsConfigured, []) ∧
    (∀ failed u rest ip, (∀ f ∈ failed, (attempt fetch parse f).isOk = false) →
        attempt fetch parse u = .ok ip →
        query_wan_ip (failed ++ u :: rest) fetch parse = (.ok ip, failed ++ [u])) ∧
    (∀ urls ulast e, urls.getLast? = some ulast →
        (∀ f ∈ urls, (attempt fetch parse f).isOk = false) →
        attempt fetch parse ulast = .error e →
        query_wan_ip urls fetch parse = (.error (.queryFailed e), urls)) := by
  refine ⟨rfl, ?_, ?_⟩
  · intro failed u rest ip hfail hsucc
    have hne : (failed ++ u :: rest).isEmpty = false := by
      cases failed <;> rfl
    simp only [query_wan_ip, hne, Bool.false_eq_true, if_false]
    exact queryWanIpGo_first_success fetch parse u rest ip hsucc failed none hfail
  · intro urls ulast e hlast hfail herr
    have hne : urls.isEmpty = false := by
      cases urls
      · cases hlast
      · rfl
    simp only [query_wan_ip, hne, Bool.false_eq_true, if_false]
    exact queryWanIpGo_all_fail fetch parse urls none ulast e hlast hfail herr

/-- Witness for `wan_query_first_success_policy`: the first endpoint is
down, the second succeeds, the third is never contacted. -/
theorem wan_query_first_success_policy_instance :
    query_wan_ip ["https://api.seeip.org", "https://api64.ipify.org", "https://example.net"]
      exFetch exParse =
      (.ok (.v4 203 0 113 5), ["https://api.seeip.org", "https://api64.ipify.org"]) :=
  (wan_query_first_success_policy exFetch exParse).2.1 ["https://api.seeip.org"]
    "https://api64.ipify.org" ["https://example.net"] (.v4 203 0 113 5)
    (by decide) (by rfl)

theorem parseAll_error_of_mem (parseUrl : String → Except String Url) :
    ∀ (l : List String) (line : String) (e : String), line ∈ l → parseUrl line = .error e →
      ∃ e2, parseAll parseUrl l = .error e2 := by
  intro l
  induction l with
  | nil =>
    intro line e h
    cases h
  | cons u rest ih =>
    intro line e hmem herr
    cases hu : parseUrl u with
    | error e' => exact ⟨e', by simp [parseAll, hu]⟩
    | ok url =>
      rcases List.mem_cons.mp hmem with rfl | hrest
      · rw [herr] at hu
        cases hu
      · obtain ⟨e2, h2⟩ := ih line e hrest herr
        exact ⟨e2, by simp [parseAll, hu, h2]⟩

/-- C9: when the endpoint file is absent, loading writes exactly the two
built-in default URLs one per line and (provided both defaults parse)
returns the two-element default list; when the file exists, any non-empty
line on which the URL parser fails makes loading fail with a URL-parse
error rather than being skipped. -/
theorem endpoint_file_defaults_and_parse_failure (parseUrl : String → Except String Url) :
    (∀ u1 u2, parseUrl "https://api.seeip.org" = .ok u1 →
        parseUrl "https://api64.ipify.org" = .ok u2 →
        load_api_urls .notFoundErr parseUrl =
          (.ok [u1, u2], some "https://api.seeip.org\nhttps://api64.ipify.org\n")) ∧
    (∀ c line e,
        line ∈ ((splitOnChar '\n' c.data).filter (fun l => !l.isEmpty)).map String.mk →
        parseUrl line = .error e →
        isUrlParseError (load_api_urls (.contents c) parseUrl).1 = true) := by
  constructor
  · intro u1 u2 h1 h2
    simp only [load_api_urls, DEFAULT_APIS, parseAll, h1, h2]
    rw [show defaultFileContents = "https://api.seeip.org\nhttps://api64.ipify.org\n" from
      by decide]
  · intro c line e hmem herr
    obtain ⟨e2, h2⟩ := parseAll_error_of_mem parseUrl _ line e hmem herr
    simp [load_api_urls, h2, isUrlParseError]

/-- Witness for `endpoint_file_defaults_and_parse_failure`: a missing file
yields the two defaults and writes them; a file with an ill-formed line
fails with a URL-parse error. -/
theorem endpoint_file_defaults_and_parse_failure_instance :
    load_api_urls .notFoundErr exParseUrl =
      (.ok [⟨"https://api.seeip.org"⟩, ⟨"https://api64.ipify.org"⟩],
        some "https://api.seeip.org\nhttps://api64.ipify.org\n") ∧
    isUrlParseError
      (load_api_urls (.contents "https://ok.example\nnot a url\n") exParseUrl).1 = true :=
  ⟨(endpoint_file_defaults_and_parse_failure exParseUrl).1 ⟨"https://api.seeip.org"⟩
      ⟨"https://api64.ipify.org"⟩ (by rfl) (by rfl),
    (endpoint_file_defaults_and_parse_failure exParseUrl).2 "https://ok.example\nnot a url\n"
      "not a url" "invalid" (by decide) (by rfl)⟩

end DnsUpdater
